import Mathlib

/-!
Shallow embedding of `solutionbox/inception/datalab_solutions/inception/_util.py`
(pydatalab). External effects (file existence checks, file reads, glob
expansion) are abstracted as a `FileSystem` record of pure functions; the
Python functions of `_util.py` are translated into total Lean functions over
that abstraction, with fallible functions returning `Except String`.
-/

set_option autoImplicit false

namespace PyDatalab

/-- Python's `str.rstrip()` whitespace set (ASCII): space, tab, newline,
carriage return, vertical tab, form feed. -/
def pyIsSpace (c : Char) : Bool :=
  c = ' ' || c = '\t' || c = '\n' || c = '\r' || c = '\x0b' || c = '\x0c'

/-- Python's `str.rstrip()`: remove trailing whitespace characters. -/
def pyRstrip (s : String) : String :=
  ⟨(s.data.reverse.dropWhile pyIsSpace).reverse⟩

/-- Python's `str.split(sep)` for a one-character separator, on a character
list: every occurrence of `sep` ends a field, so `n` separators yield `n + 1`
fields and the empty string yields one empty field. -/
def pySplitCharList (sep : Char) : List Char → List (List Char)
  | [] => [[]]
  | c :: cs =>
    match pySplitCharList sep cs with
    | [] => [[]]
    | r :: rs => if c = sep then [] :: r :: rs else (c :: r) :: rs

/-- Python's `str.split(sep)` for a one-character separator. -/
def pySplitChar (sep : Char) (s : String) : List String :=
  (pySplitCharList sep s.data).map (fun l => ⟨l⟩)

/-- POSIX `os.path.join(a, b)` for two components: if `b` is absolute it wins;
if `a` is empty or already ends with the separator `'/'`, concatenate;
otherwise insert a separator. -/
def pathJoin (a b : String) : String :=
  if b.data.head? = some '/' then b
  else if a.data.isEmpty || a.data.getLast? = some '/' then a ++ b
  else a ++ "/" ++ b

/-- Abstraction of the I/O layer used by `_util.py` (`ml.util._file` and
`tensorflow.python.lib.io.file_io`): existence test, whole-file read, and
glob expansion of a pattern into matching file names. -/
structure FileSystem where
  fileExists : String → Bool
  readFile : String → String
  globFiles : String → List String

/-- The message of the exception raised by `_get_latest_data_dir` when the
`latest` marker file is absent: the Python format string
`'Cannot find "latest" file in "%s". Please use a preprocessing output dir.'`
applied to `input_dir`. -/
def latestErrMsg (input_dir : String) : String :=
  "Cannot find \"latest\" file in \"" ++ input_dir ++
    "\". Please use a preprocessing output dir."

/-- `_get_latest_data_dir(input_dir)`: check that the `latest` marker file
exists (raising otherwise), read it, strip trailing whitespace, and join the
result onto `input_dir`. -/
def _get_latest_data_dir (fs : FileSystem) (input_dir : String) :
    Except String String :=
  let latest_file := pathJoin input_dir "latest"
  if fs.fileExists latest_file then
    let dir_name := pyRstrip (fs.readFile latest_file)
    .ok (pathJoin input_dir dir_name)
  else
    .error (latestErrMsg input_dir)

/-- `get_train_eval_files(input_dir)`: resolve the active data directory and
glob for the train and eval shard patterns there. -/
def get_train_eval_files (fs : FileSystem) (input_dir : String) :
    Except String (List String × List String) := do
  let data_dir ← _get_latest_data_dir fs input_dir
  let train_pattern := pathJoin data_dir "train*.tfrecord.gz"
  let eval_pattern := pathJoin data_dir "eval*.tfrecord.gz"
  let train_files := fs.globFiles train_pattern
  let eval_files := fs.globFiles eval_pattern
  return (train_files, eval_files)

/-- `get_labels(input_dir)`: resolve the active data directory, read the
`labels` file there, strip trailing whitespace and split on newlines. -/
def get_labels (fs : FileSystem) (input_dir : String) :
    Except String (List String) := do
  let data_dir ← _get_latest_data_dir fs input_dir
  let labels_file := pathJoin data_dir "labels"
  let labels := pySplitChar '\n' (pyRstrip (fs.readFile labels_file))
  return labels

/-- `override_if_not_in_args(flag, argument, args)`: Python mutates `args` in
place; the embedding returns the final value of the list. -/
def override_if_not_in_args (flag argument : String) (args : List String) :
    List String :=
  if flag ∈ args then args else args ++ [flag, argument]

/-- The two TensorFlow variables created by `loss`: `total_loss` (a float,
modelled as `ℚ`) and `loss_count` (an int), both initialized to 0. -/
structure LossState where
  total_loss : ℚ
  loss_count : ℤ
  deriving Repr, DecidableEq

/-- The initial values `tf.Variable(0.0)` and `tf.Variable(0)`. -/
def lossInit : LossState := ⟨0, 0⟩

/-- One application of the update ops returned by `loss`:
`tf.assign_add(total_loss, loss_value)` and `tf.assign_add(loss_count, 1)`. -/
def lossUpdate (s : LossState) (loss_value : ℚ) : LossState :=
  ⟨s.total_loss + loss_value, s.loss_count + 1⟩

/-- The `loss_op` returned by `loss`: `total_loss / tf.cast(loss_count, float)`. -/
def loss_op (s : LossState) : ℚ :=
  s.total_loss / (s.loss_count : ℚ)

/-- `tf.nn.in_top_k(logits, labels, 1)` for one row: the target label's logit
is among the top 1 values, i.e. it exists and no other logit exceeds it. -/
def inTop1 (logits : List ℚ) (label : ℕ) : Bool :=
  match logits.get? label with
  | some v => logits.all (fun x => decide (x ≤ v))
  | none => false

/-- A batch passed to `accuracy`: one row of logits and one label per example. -/
abbrev Batch := List (List ℚ × ℕ)

/-- `tf.reduce_sum(tf.cast(is_correct, int))`: the number of examples of the
batch whose label is in the top 1 of its logits. -/
def correctInBatch (b : Batch) : ℕ :=
  (b.filter (fun p => inTop1 p.1 p.2)).length

/-- `tf.reduce_sum(tf.cast(tf.logical_not(is_correct), int))`: the number of
examples of the batch whose label is not in the top 1 of its logits. -/
def incorrectInBatch (b : Batch) : ℕ :=
  (b.filter (fun p => !inTop1 p.1 p.2)).length

/-- The two TensorFlow variables created by `accuracy`: `correct_count` and
`incorrect_count` (ints), both initialized to 0. -/
structure AccState where
  correct_count : ℤ
  incorrect_count : ℤ
  deriving Repr, DecidableEq

/-- The initial values `tf.Variable(0)` and `tf.Variable(0)`. -/
def accInit : AccState := ⟨0, 0⟩

/-- One application of the update ops returned by `accuracy`:
`tf.assign_add(correct_count, correct)` and
`tf.assign_add(incorrect_count, incorrect)` for one batch. -/
def accUpdate (s : AccState) (b : Batch) : AccState :=
  ⟨s.correct_count + correctInBatch b, s.incorrect_count + incorrectInBatch b⟩

/-- The `accuracy_op` returned by `accuracy`:
`cast(correct_count, float) / cast(correct_count + incorrect_count, float)`. -/
def accuracy_op (s : AccState) : ℚ :=
  (s.correct_count : ℚ) / ((s.correct_count + s.incorrect_count : ℤ) : ℚ)

/-- `tf.python_io.TFRecordCompressionType` values used by `read_examples`. -/
inductive CompressionType where
  | GZIP
  deriving Repr, DecidableEq

/-- Which batching primitive `read_examples` returns:
`tf.train.shuffle_batch` or `tf.train.batch`. -/
inductive BatchMode where
  | shuffle_batch
  | batch
  deriving Repr, DecidableEq

/-- The observable configuration of the pipeline built by `read_examples`:
the expanded file list, the epoch count and shuffle flag handed to
`string_input_producer`, the reader's compression type, and the batching
primitive with its batch size, queue capacity, `min_after_dequeue` (absent for
`tf.train.batch`) and thread count. -/
structure Pipeline where
  files : List String
  numEpochs : Option ℕ
  shuffleFilenames : Bool
  compression : CompressionType
  mode : BatchMode
  batchSize : ℕ
  capacity : ℕ
  minAfterDequeue : Option ℕ
  numThreads : ℕ
  enqueueMany : Bool
  deriving Repr, DecidableEq

/-- The file-expansion loop of `read_examples`: start from `files = []` and,
for each entry `e` of `input_files` and each comma-separated part of `e`,
`files.extend(file_io.get_matching_files(path))`. `glob` stands for
`file_io.get_matching_files`. -/
def expandInputFiles (glob : String → List String)
    (input_files : List String) : List String :=
  input_files.foldl
    (fun files e =>
      (pySplitChar ',' e).foldl (fun files path => files ++ glob path) files)
    []

/-- `read_examples(input_files, batch_size, shuffle, num_epochs=None)`.
`glob` abstracts `file_io.get_matching_files` and `cpu_count` abstracts
`multiprocessing.cpu_count()`. The Python line `num_epochs = num_epochs or
None` maps any falsy value (`None` or `0`) to `None`. -/
def read_examples (glob : String → List String) (cpu_count : ℕ)
    (input_files : List String) (batch_size : ℕ) (shuffle : Bool)
    (num_epochs : Option ℕ) : Pipeline :=
  let files := expandInputFiles glob input_files
  let thread_count := cpu_count
  let min_after_dequeue := 1000
  let queue_size_multiplier := thread_count + 3
  let num_epochs := num_epochs.bind (fun k => if k = 0 then none else some k)
  if shuffle then
    { files := files
      numEpochs := num_epochs
      shuffleFilenames := shuffle
      compression := .GZIP
      mode := .shuffle_batch
      batchSize := batch_size
      capacity := min_after_dequeue + queue_size_multiplier * batch_size
      minAfterDequeue := some min_after_dequeue
      numThreads := thread_count
      enqueueMany := true }
  else
    { files := files
      numEpochs := num_epochs
      shuffleFilenames := shuffle
      compression := .GZIP
      mode := .batch
      batchSize := batch_size
      capacity := queue_size_multiplier * batch_size
      minAfterDequeue := none
      numThreads := thread_count
      enqueueMany := true }

/-! ### Helper lemmas -/

lemma lossUpdate_foldl (vs : List ℚ) (s : LossState) :
    vs.foldl lossUpdate s =
      ⟨s.total_loss + vs.sum, s.loss_count + vs.length⟩ := by
  induction vs generalizing s with
  | nil => simp
  | cons v vs ih =>
    simp only [List.foldl_cons, ih, lossUpdate, List.sum_cons, List.length_cons]
    refine congrArg₂ LossState.mk (by ring) (by push_cast; ring)

lemma accUpdate_foldl (bs : List Batch) (s : AccState) :
    bs.foldl accUpdate s =
      ⟨s.correct_count + (bs.map correctInBatch).sum,
       s.incorrect_count + (bs.map incorrectInBatch).sum⟩ := by
  induction bs generalizing s with
  | nil => simp
  | cons b bs ih =>
    simp only [List.foldl_cons, ih, accUpdate, List.map_cons, List.sum_cons]
    refine congrArg₂ AccState.mk (by push_cast; ring) (by push_cast; ring)

lemma correct_add_incorrect (b : Batch) :
    correctInBatch b + incorrectInBatch b = b.length := by
  induction b with
  | nil => rfl
  | cons x xs ih =>
    simp only [correctInBatch, incorrectInBatch, List.filter_cons,
      List.length_cons] at *
    by_cases h : inTop1 x.1 x.2 <;> simp [h] <;> omega

lemma expandInputFiles_inner (glob : String → List String)
    (parts : List String) (acc : List String) :
    parts.foldl (fun files path => files ++ glob path) acc =
      acc ++ parts.flatMap glob := by
  induction parts generalizing acc with
  | nil => simp
  | cons p ps ih => simp [ih, List.append_assoc]

lemma expandInputFiles_eq (glob : String → List String)
    (input_files : List String) :
    expandInputFiles glob input_files =
      input_files.flatMap (fun e => (pySplitChar ',' e).flatMap glob) := by
  unfold expandInputFiles
  suffices h : ∀ acc : List String,
      input_files.foldl
        (fun files e =>
          (pySplitChar ',' e).foldl (fun files path => files ++ glob path) files)
        acc =
      acc ++ input_files.flatMap (fun e => (pySplitChar ',' e).flatMap glob) by
    simpa using h []
  induction input_files with
  | nil => simp
  | cons e es ih =>
    intro acc
    simp [expandInputFiles_inner, ih, List.append_assoc]

/-! ### Claims -/

/-- C1: when the `latest` marker file of `input_dir` is absent,
`_get_latest_data_dir` — and therefore `get_train_eval_files` and
`get_labels`, which call it first — raises the exception whose message names
`input_dir` and instructs the caller to use a preprocessing output dir; when
the marker file exists, this explicit failure is not raised. -/
theorem latest_marker_missing_raises (fs : FileSystem) (input_dir : String) :
    (fs.fileExists (pathJoin input_dir "latest") = false →
      _get_latest_data_dir fs input_dir = .error (latestErrMsg input_dir) ∧
      get_train_eval_files fs input_dir = .error (latestErrMsg input_dir) ∧
      get_labels fs input_dir = .error (latestErrMsg input_dir) ∧
      latestErrMsg input_dir =
        "Cannot find \"latest\" file in \"" ++ input_dir ++
          "\". Please use a preprocessing output dir.") ∧
    (fs.fileExists (pathJoin input_dir "latest") = true →
      ∃ d, _get_latest_data_dir fs input_dir = .ok d) := by
  constructor <;> intro h <;>
    simp [_get_latest_data_dir, get_train_eval_files, get_labels,
      latestErrMsg, h, bind, Except.bind]

/-- C1 witness: the dichotomy evaluated at two concrete file systems. -/
theorem latest_marker_missing_raises_witness :
    _get_latest_data_dir ⟨fun _ => false, fun _ => "", fun _ => []⟩ "in" =
      .error (latestErrMsg "in") ∧
    ∃ d, _get_latest_data_dir ⟨fun _ => true, fun _ => "v1\n", fun _ => []⟩
        "in" = .ok d :=
  ⟨((latest_marker_missing_raises ⟨fun _ => false, fun _ => "", fun _ => []⟩
      "in").1 rfl).1,
   (latest_marker_missing_raises ⟨fun _ => true, fun _ => "v1\n", fun _ => []⟩
      "in").2 rfl⟩

/-- C2: `override_if_not_in_args` leaves `args` unchanged when `flag` is a
member of `args`, and otherwise the final value of `args` is the original list
followed by exactly `[flag, argument]`. -/
theorem override_if_not_in_args_spec (flag argument : String)
    (args : List String) :
    (flag ∈ args → override_if_not_in_args flag argument args = args) ∧
    (flag ∉ args →
      override_if_not_in_args flag argument args = args ++ [flag, argument]) := by
  constructor <;> intro h <;> simp [override_if_not_in_args, h]

/-- C2 witness: both branches evaluated at concrete argument lists. -/
theorem override_if_not_in_args_spec_witness :
    override_if_not_in_args "--lr" "0.1" ["--lr", "0.5"] = ["--lr", "0.5"] ∧
    override_if_not_in_args "--lr" "0.1" ["--bs", "8"] =
      ["--bs", "8", "--lr", "0.1"] :=
  ⟨(override_if_not_in_args_spec "--lr" "0.1" ["--lr", "0.5"]).1 (by decide),
   (override_if_not_in_args_spec "--lr" "0.1" ["--bs", "8"]).2 (by decide)⟩

/-- C3: each application of the update ops of `loss` adds the loss value to
`total_loss` and 1 to `loss_count`; both start at zero, and after any sequence
of updates the returned `loss_op` equals the running sum divided by the
running count, i.e. the mean of the loss values aggregated so far. -/
theorem loss_running_mean (values : List ℚ) :
    (∀ (s : LossState) (v : ℚ),
      (lossUpdate s v).total_loss = s.total_loss + v ∧
      (lossUpdate s v).loss_count = s.loss_count + 1) ∧
    lossInit.total_loss = 0 ∧ lossInit.loss_count = 0 ∧
    (values.foldl lossUpdate lossInit).total_loss = values.sum ∧
    (values.foldl lossUpdate lossInit).loss_count = values.length ∧
    loss_op (values.foldl lossUpdate lossInit) =
      values.sum / (values.length : ℚ) := by
  refine ⟨fun s v => ⟨rfl, rfl⟩, rfl, rfl, ?_, ?_, ?_⟩ <;>
    simp [lossUpdate_foldl, lossInit, loss_op]

/-- C4: each update step of `accuracy` adds the number of labels in the top-1
of their logits to `correct_count` and the remainder of the batch to
`incorrect_count`; both start at zero, and after any sequence of updates the
returned `accuracy_op` equals `correct_count / (correct_count +
incorrect_count)`, the cumulative ratio over all steps aggregated so far. -/
theorem accuracy_running_ratio (batches : List Batch) :
    (∀ (s : AccState) (b : Batch),
      (accUpdate s b).correct_count = s.correct_count + correctInBatch b ∧
      (accUpdate s b).incorrect_count =
        s.incorrect_count + incorrectInBatch b ∧
      correctInBatch b + incorrectInBatch b = b.length) ∧
    accInit.correct_count = 0 ∧ accInit.incorrect_count = 0 ∧
    (batches.foldl accUpdate accInit).correct_count =
      ((batches.map correctInBatch).sum : ℤ) ∧
    (batches.foldl accUpdate accInit).incorrect_count =
      ((batches.map incorrectInBatch).sum : ℤ) ∧
    accuracy_op (batches.foldl accUpdate accInit) =
      ((batches.map correctInBatch).sum : ℚ) /
        (((batches.map correctInBatch).sum : ℚ) +
          ((batches.map incorrectInBatch).sum : ℚ)) := by
  refine ⟨fun s b => ⟨rfl, rfl, correct_add_incorrect b⟩, rfl, rfl, ?_, ?_, ?_⟩
  · simp [accUpdate_foldl, accInit]
  · simp [accUpdate_foldl, accInit]
  · rw [accUpdate_foldl]
    generalize (batches.map correctInBatch).sum = m
    generalize (batches.map incorrectInBatch).sum = n
    simp [accInit, accuracy_op]

/-- C5: when the `latest` marker of `input_dir` exists, `get_train_eval_files`
resolves the active data directory as `input_dir` joined with the marker's
contents (trailing whitespace stripped) and returns the pair of glob results
for `train*.tfrecord.gz` and `eval*.tfrecord.gz` in that directory, in that
order. -/
theorem get_train_eval_files_spec (fs : FileSystem) (input_dir : String)
    (h : fs.fileExists (pathJoin input_dir "latest") = true) :
    get_train_eval_files fs input_dir =
      .ok
        (fs.globFiles (pathJoin
            (pathJoin input_dir
              (pyRstrip (fs.readFile (pathJoin input_dir "latest"))))
            "train*.tfrecord.gz"),
         fs.globFiles (pathJoin
            (pathJoin input_dir
              (pyRstrip (fs.readFile (pathJoin input_dir "latest"))))
            "eval*.tfrecord.gz")) := by
  simp [get_train_eval_files, _get_latest_data_dir, h, bind, Except.bind,
    pure, Except.pure]

/-- C5 witness: evaluated at a file system whose marker reads `v1` and whose
glob echoes its pattern. -/
theorem get_train_eval_files_spec_witness :
    get_train_eval_files ⟨fun _ => true, fun _ => "v1\n", fun p => [p]⟩ "in" =
      .ok (["in/v1/train*.tfrecord.gz"], ["in/v1/eval*.tfrecord.gz"]) := by
  have h := get_train_eval_files_spec
    ⟨fun _ => true, fun _ => "v1\n", fun p => [p]⟩ "in" rfl
  rw [h]
  rfl

/-- C6: when the `latest` marker of `input_dir` exists, `get_labels` returns
the contents of the `labels` file of the active versioned sub-directory,
trailing whitespace stripped, split on newline characters. -/
theorem get_labels_spec (fs : FileSystem) (input_dir : String)
    (h : fs.fileExists (pathJoin input_dir "latest") = true) :
    get_labels fs input_dir =
      .ok (pySplitChar '\n' (pyRstrip (fs.readFile (pathJoin
          (pathJoin input_dir
            (pyRstrip (fs.readFile (pathJoin input_dir "latest"))))
          "labels")))) := by
  simp [get_labels, _get_latest_data_dir, h, bind, Except.bind,
    pure, Except.pure]

/-- C6 witness: evaluated at a file system whose marker reads `v1` and whose
labels file reads `cat\ndog\n`. -/
theorem get_labels_spec_witness :
    get_labels
      ⟨fun _ => true,
       fun p => if p = "in/latest" then "v1\n" else "cat\ndog\n",
       fun _ => []⟩ "in" = .ok ["cat", "dog"] := by
  have h := get_labels_spec
    ⟨fun _ => true,
     fun p => if p = "in/latest" then "v1\n" else "cat\ndog\n",
     fun _ => []⟩ "in" rfl
  rw [h]
  rfl

/-- C7: `read_examples` uses a thread count equal to the number of available
CPU cores; with `shuffle` true it builds a `shuffle_batch` pipeline of queue
capacity `1000 + (thread_count + 3) * batch_size`, with `shuffle` false a
sequential `batch` pipeline of capacity `(thread_count + 3) * batch_size`,
reading GZIP-compressed records in both cases. -/
theorem read_examples_thread_and_capacity (glob : String → List String)
    (cpu_count : ℕ) (input_files : List String) (batch_size : ℕ)
    (num_epochs : Option ℕ) :
    (∀ shuffle : Bool,
      (read_examples glob cpu_count input_files batch_size shuffle
        num_epochs).numThreads = cpu_count ∧
      (read_examples glob cpu_count input_files batch_size shuffle
        num_epochs).compression = .GZIP ∧
      (read_examples glob cpu_count input_files batch_size shuffle
        num_epochs).batchSize = batch_size) ∧
    (read_examples glob cpu_count input_files batch_size true
      num_epochs).mode = .shuffle_batch ∧
    (read_examples glob cpu_count input_files batch_size true
      num_epochs).capacity = 1000 + (cpu_count + 3) * batch_size ∧
    (read_examples glob cpu_count input_files batch_size true
      num_epochs).minAfterDequeue = some 1000 ∧
    (read_examples glob cpu_count input_files batch_size false
      num_epochs).mode = .batch ∧
    (read_examples glob cpu_count input_files batch_size false
      num_epochs).capacity = (cpu_count + 3) * batch_size ∧
    (read_examples glob cpu_count input_files batch_size false
      num_epochs).minAfterDequeue = none := by
  constructor
  · intro shuffle
    cases shuffle <;> simp [read_examples]
  · simp [read_examples]

/-- C8: `read_examples` maps `num_epochs = 0` to `None` before building the
filename queue, so passing 0 yields exactly the pipeline of the default
`None` (unlimited epochs) rather than one producing no data. -/
theorem read_examples_zero_epochs (glob : String → List String)
    (cpu_count : ℕ) (input_files : List String) (batch_size : ℕ)
    (shuffle : Bool) :
    read_examples glob cpu_count input_files batch_size shuffle (some 0) =
      read_examples glob cpu_count input_files batch_size shuffle none ∧
    (read_examples glob cpu_count input_files batch_size shuffle
      (some 0)).numEpochs = none := by
  cases shuffle <;> simp [read_examples]

/-- C9: the file list read by `read_examples` is the concatenation, over all
entries of `input_files` and all comma-separated parts of each entry, of the
glob matches of each part. -/
theorem read_examples_comma_glob (glob : String → List String)
    (cpu_count : ℕ) (input_files : List String) (batch_size : ℕ)
    (shuffle : Bool) (num_epochs : Option ℕ) :
    (read_examples glob cpu_count input_files batch_size shuffle
      num_epochs).files =
      input_files.flatMap (fun e => (pySplitChar ',' e).flatMap glob) := by
  cases shuffle <;> simp [read_examples, expandInputFiles_eq]

/-- C10: `override_if_not_in_args` tests membership against every element of
the list: whenever the flag occurs anywhere in `args` — also as the value of a
different flag — nothing is appended. -/
theorem override_checks_all_positions (flag argument : String)
    (front back : List String) :
    override_if_not_in_args flag argument (front ++ flag :: back) =
      front ++ flag :: back := by
  have h : flag ∈ front ++ flag :: back :=
    List.mem_append_right front (List.mem_cons_self flag back)
  simp [override_if_not_in_args, h]

end PyDatalab
